import Mathlib

/-!
Verification of the ChatDev CLI-provider core against its specification.

The definitions below are shallow embeddings of the Python sources under
`src/runtime/node/agent/providers/` and `src/runtime/node/executor/`:
pure fragments become Lean functions, the mutable session registry and the
loop-counter state become explicit state passing, and Python `dict`s with
reserved keys become structures with `Option` fields (where `none` models an
absent key).  Python truthiness (`None`, `""` and `0` are falsy) is modelled
explicitly wherever the source relies on it.
-/

set_option autoImplicit false

namespace ChatDev

/-! ## Python-value helpers -/

/-- Truthiness of an optional Python string: `None` and `""` are falsy. -/
def optStrTruthy : Option String → Bool
  | none => false
  | some s => s != ""

/-- Python `a or b` on optional strings: yields `a` when `a` is truthy,
otherwise `b` (which is returned as-is, even when falsy). -/
def pyOr (a b : Option String) : Option String :=
  if optStrTruthy a then a else b

/-- Truthiness of an optional Python integer: `None` and `0` are falsy. -/
def optNatTruthy : Option Nat → Bool
  | none => false
  | some n => n != 0

/-- Python `a or d` for optional integer configuration values
(`configured_turns or 20` and friends). -/
def natOr (a : Option Nat) (d : Nat) : Nat :=
  if optNatTruthy a then a.getD d else d

/-- Python string slicing `s[:n]` (both Python `str` indices and Lean
`String.data` entries are code points). -/
def pySlice (s : String) (n : Nat) : String := String.mk (s.data.take n)

/-! ## RawResponse and the tail of `_run_streaming`

Mirrors `CliProviderBase._parse_stream_result` and the return-value assembly
of `CliProviderBase._run_streaming` (cli_provider_base.py lines 523-561) as
well as the Copilot plain-text variant (copilot_cli_provider.py lines
210-233). -/

/-- Reserved keys of the `raw_response` mapping (`result`, `session_id`,
`error`, `_returncode`, `type`); `none` models an absent key. -/
structure RawResponse where
  result : Option String := none
  session_id : Option String := none
  error : Option String := none
  returncode : Option Int := none
  etype : Option String := none
  deriving DecidableEq

/-- Mirrors `CliProviderBase._parse_stream_result`: assemble the final raw
response from the terminal `result` event (if any), the accumulated text
lines, and the captured session id.  `resultData = none` models an empty
`result_data` dict. -/
def parseStreamResult (resultData : Option RawResponse) (accumulated : List String)
    (sessionId : Option String) : RawResponse :=
  match resultData with
  | some rd =>
    let r1 : RawResponse :=
      if ¬ optStrTruthy rd.result = true ∧ accumulated ≠ [] then
        { rd with result := some (String.intercalate "\n" accumulated) }
      else rd
    if optStrTruthy sessionId = true ∧ r1.session_id = none then
      { r1 with session_id := sessionId }
    else r1
  | none =>
    { result := some (if accumulated ≠ [] then String.intercalate "\n" accumulated else ""),
      session_id := sessionId,
      etype := some "result" }

/-- Mirrors the return paths of `CliProviderBase._run_streaming` (lines
534-542): on overall-deadline expiry only `error` is returned, on idle or
tool-call expiry only `error` and `session_id`, and only the normal path
attaches `_returncode`. -/
def runStreamingReturn (timedOut stalled : Bool) (resultData : Option RawResponse)
    (accumulated : List String) (sessionId : Option String) (returncode : Int) :
    RawResponse :=
  if timedOut then { error := some "timeout" }
  else if stalled then { error := some "stall", session_id := sessionId }
  else { parseStreamResult resultData accumulated sessionId with returncode := some returncode }

/-- Mirrors the return paths of `CopilotCliProvider._run_streaming` (lines
221-233): the plain-text supervisor behaves the same way with respect to
`error` and `_returncode`. -/
def copilotRunReturn (timedOut stalled : Bool) (accumulated : List String)
    (sessionId : Option String) (returncode : Int) : RawResponse :=
  if timedOut then { error := some "timeout" }
  else if stalled then { error := some "stall", session_id := sessionId }
  else
    { result := some (if accumulated ≠ [] then String.intercalate "\n" accumulated else ""),
      session_id := sessionId, etype := some "result", returncode := some returncode }

/-! ## C2: tool-result truncation -/

/-- A Python value as it may appear in a raw event's `output`/`content` field
or in `NormalizedEvent.tool_result`: a string, `None`, or any other object
together with its `str()` rendering and its truthiness. -/
inductive PyVal where
  | pstr (s : String)
  | pnone
  | pother (rep : String) (truthy : Bool)
  deriving DecidableEq

/-- Python `str(v)`. -/
def PyVal.str : PyVal → String
  | .pstr s => s
  | .pnone => "None"
  | .pother rep _ => rep

/-- Python truthiness of a value. -/
def PyVal.isTruthy : PyVal → Bool
  | .pstr s => s != ""
  | .pnone => false
  | .pother _ t => t

/-- Python `v or ""`. -/
def PyVal.orEmpty (v : PyVal) : PyVal := if v.isTruthy then v else .pstr ""

/-- Mirrors the `tool_end` branch of `CliProviderBase._run_streaming` (lines
501-505): the result attached to the pending tool before the callback is
`normalized.tool_result if isinstance(normalized.tool_result, str)
else str(normalized.tool_result or "")[:200]` — the `[:200]` slice applies
only in the non-string branch. -/
def toolEndAttachedResult (toolResult : PyVal) : String :=
  match toolResult with
  | .pstr s => s
  | v => pySlice (PyVal.str v.orEmpty) 200

/-- Mirrors the `tool_result` arm of `GeminiCliProvider._normalize_event`
(gemini_cli_provider.py lines 138-145): the normalized `tool_result` is
`output if isinstance(output, str) else str(output)[:200]`. -/
def geminiToolResultField (output : PyVal) : PyVal :=
  match output with
  | .pstr s => .pstr s
  | v => .pstr (pySlice v.str 200)

/-- A concrete 201-character tool result. -/
def longToolResult : String := String.mk (List.replicate 201 'a')

/-! ## C3: process-group kill on abnormal termination -/

/-- How a kill is delivered when a deadline expires. -/
inductive KillMode where
  | group
  | single
  deriving DecidableEq

/-- Static process-control profile of a `_run_streaming` implementation:
whether the child is spawned as a session leader in its own process group
(`start_new_session=True`), and which kill each abnormal path delivers
(`group` = `os.killpg` on the child's process group, `single` =
`process.kill()` on the direct child only). -/
structure KillBehavior where
  startNewSession : Bool
  overallKill : KillMode
  idleKill : KillMode
  toolCallKill : Option KillMode
  deriving DecidableEq

/-- Profile of `CliProviderBase._run_streaming` (lines 394-470), used by the
Claude and Gemini providers: `start_new_session=True`; the overall and idle
timers call `_kill_tree` (`os.killpg(os.getpgid(process.pid), SIGKILL)`),
but the tool-call-deadline path calls `process.kill()`. -/
def baseStreamingKills : KillBehavior :=
  { startNewSession := true, overallKill := .group, idleKill := .group,
    toolCallKill := some .single }

/-- Profile of `CopilotCliProvider._run_streaming` (lines 149-175): `Popen`
without `start_new_session`, both timer callbacks call `process.kill()`, and
there is no tool-call deadline. -/
def copilotStreamingKills : KillBehavior :=
  { startNewSession := false, overallKill := .single, idleKill := .single,
    toolCallKill := none }

/-- The claimed property of a profile: the child is a session leader in its
own process group and every abnormal path delivers a group-wide kill. -/
def killsGroupWide (k : KillBehavior) : Bool :=
  k.startNewSession && k.overallKill == .group && k.idleKill == .group &&
    (match k.toolCallKill with | none => true | some m => m == .group)

/-- Supervisor profiles of the three providers. -/
def providerStreamingKills : List (String × KillBehavior) :=
  [("claude", baseStreamingKills), ("gemini", baseStreamingKills),
   ("copilot", copilotStreamingKills)]

/-! ## C10: loop-counter node executor

Mirrors `LoopCounterNodeExecutor.execute` and `_get_state`
(loop_counter_executor.py lines 31-74). -/

/-- Message roles used by the executor. -/
inductive MessageRole where
  | system
  | user
  | assistant
  | tool
  deriving DecidableEq

/-- Metadata attached to the loop-exit message. -/
structure LoopExitMeta where
  count : Nat
  maxIter : Int
  resetOnEmit : Bool
  deriving DecidableEq

/-- A conversation message as the executor produces and passes through. -/
structure Message where
  role : MessageRole
  content : String
  loopMeta : Option LoopExitMeta := none
  deriving DecidableEq

/-- Modelled from the executor's use of `LoopCounterConfig` (the config class
itself lives outside `src/`): `max_iterations`, `reset_on_emit` and the
optional exhaustion `message`. -/
structure LoopCounterConfig where
  max_iterations : Int
  reset_on_emit : Bool
  message : Option String := none
  deriving DecidableEq

/-- The per-node counters stored under the `loop_counter` key of the global
state (`_get_state`): node id to current count. -/
abbrev LoopState := List (String × Nat)

/-- Current count for a node. -/
def lookupCount (st : LoopState) (node : String) : Option Nat :=
  st.lookup node

/-- Store a count for a node, replacing the existing binding or appending a
new one (Python dict semantics). -/
def setCount : LoopState → String → Nat → LoopState
  | [], node, v => [(node, v)]
  | (k, w) :: rest, node, v =>
    if k = node then (k, v) :: rest else (k, w) :: setCount rest node v

/-- Prefix added to the exhaustion message (loop_counter_executor.py line 13). -/
def LOOP_EXIT_MARKER : String := "LOOP_EXIT"

/-- The exhaustion message text: `config.message or f"Loop limit reached (…)"`
(Python `or`, so an empty configured message falls back to the default). -/
def loopExitRawMessage (cfg : LoopCounterConfig) : String :=
  match cfg.message with
  | some s => if s = "" then "Loop limit reached (" ++ toString cfg.max_iterations ++ ")" else s
  | none => "Loop limit reached (" ++ toString cfg.max_iterations ++ ")"

/-- Mirrors `LoopCounterNodeExecutor.execute`: bump the node's counter; below
`max_iterations` pass the inputs through, otherwise emit the single
`LOOP_EXIT` assistant message, resetting the counter when `reset_on_emit`. -/
def loopCounterExecute (cfg : LoopCounterConfig) (nodeId : String)
    (state : LoopState) (inputs : List Message) : List Message × LoopState :=
  let old := (lookupCount state nodeId).getD 0
  let count := old + 1
  if (count : Int) < cfg.max_iterations then
    (inputs, setCount state nodeId count)
  else
    let stored := if cfg.reset_on_emit then 0 else count
    let content := LOOP_EXIT_MARKER ++ ": " ++ loopExitRawMessage cfg
    ([{ role := .assistant, content := content,
        loopMeta := some { count := count, maxIter := cfg.max_iterations,
                           resetOnEmit := cfg.reset_on_emit } }],
     setCount state nodeId stored)

/-! ## C9: workspace snapshot diff

Mirrors `CliProviderBase._diff_workspace` (cli_provider_base.py lines
1054-1068).  A snapshot is the mapping `relative_path → (st_size, st_mtime_ns)`
produced by `_snapshot_workspace`, modelled as an association list with
distinct keys (Python dicts cannot repeat a key). -/

/-- A workspace snapshot: `relative_path → (st_size, st_mtime_ns)`. -/
abbrev Snapshot := List (String × (Int × Int))

/-- Kind of a reported file change. -/
inductive ChangeKind where
  | created
  | modified
  | deleted
  deriving DecidableEq

/-- One entry of the `file_changes` list: `{path, change, size}`. -/
structure Change where
  path : String
  change : ChangeKind
  size : Int
  deriving DecidableEq

/-- Mirrors `CliProviderBase._diff_workspace`: paths only in `after` are
`created`, paths in both with a differing `(size, mtime)` are `modified`,
paths only in `before` are `deleted` with size 0. -/
def diffWorkspace (before after : Snapshot) : List Change :=
  (after.filterMap fun p =>
    match List.lookup p.1 before with
    | none => some { path := p.1, change := .created, size := p.2.1 }
    | some sm => if sm ≠ p.2 then some { path := p.1, change := .modified, size := p.2.1 } else none)
  ++ (before.filterMap fun p =>
    if (List.lookup p.1 after).isNone then some { path := p.1, change := .deleted, size := 0 }
    else none)

/-- Paths of the changes reported as `created`. -/
def createdPaths (cs : List Change) : List String :=
  (cs.filter fun c => c.change == ChangeKind.created).map fun c => c.path

/-- Paths of the changes reported as `deleted`. -/
def deletedPaths (cs : List Change) : List String :=
  (cs.filter fun c => c.change == ChangeKind.deleted).map fun c => c.path

/-! ## C7: loading the sessions file

Mirrors `CliProviderBase.load_sessions_from_workspace` (cli_provider_base.py
lines 129-138): the file is read and `json.loads`-parsed inside a
`try- except (json.JSONDecodeError, OSError)`, and the decoded value is merged
with `cls._sessions.update(data)`.  `dict.update` is modelled faithfully:
a dict merges (whatever its value types), a sequence of pair-shaped items
merges incrementally, and everything else raises `TypeError`/`ValueError`,
which the `except` clause does not catch. -/

/-- A JSON value as produced by `json.loads`. -/
inductive JVal where
  | jnull
  | jbool (b : Bool)
  | jnum (n : Int)
  | jstr (s : String)
  | jarr (elems : List JVal)
  | jobj (fields : List (String × JVal))

/-- A hashable Python value usable as a dict key (lists and dicts are
unhashable and raise `TypeError` when used as keys). -/
inductive PyKey where
  | knull
  | kbool (b : Bool)
  | knum (n : Int)
  | kstr (s : String)
  deriving DecidableEq

/-- The uncaught exceptions `dict.update` can raise on JSON-decoded input. -/
inductive PyErr where
  | typeError
  | valueError
  deriving DecidableEq

/-- The in-memory `_sessions` dict.  Normal operation stores only
string-to-string pairs, but nothing in the code enforces this. -/
abbrev SessionMap := List (PyKey × JVal)

/-- Store a binding, replacing an existing key in place or appending
(Python dict assignment). -/
def setPyKey : SessionMap → PyKey → JVal → SessionMap
  | [], k, v => [(k, v)]
  | (k', v') :: rest, k, v =>
    if k' = k then (k', v) :: rest else (k', v') :: setPyKey rest k v

/-- Interpret one element of a non-dict `dict.update` argument as a key-value
pair, the way CPython does: the element is iterated and unpacked into exactly
two values (a two-element list, a two-character string, or a two-key dict),
anything non-iterable raises `TypeError`, a wrong length raises `ValueError`,
and an unhashable key raises `TypeError`. -/
def pairFromElem : JVal → Except PyErr (PyKey × JVal)
  | .jarr [a, b] =>
    match a with
    | .jnull => .ok (.knull, b)
    | .jbool x => .ok (.kbool x, b)
    | .jnum n => .ok (.knum n, b)
    | .jstr s => .ok (.kstr s, b)
    | .jarr _ => .error .typeError
    | .jobj _ => .error .typeError
  | .jarr _ => .error .valueError
  | .jstr s =>
    match s.data with
    | [c1, c2] => .ok (.kstr (String.mk [c1]), .jstr (String.mk [c2]))
    | _ => .error .valueError
  | .jobj fields =>
    match fields with
    | [(k1, _), (k2, _)] => .ok (.kstr k1, .jstr k2)
    | _ => .error .valueError
  | _ => .error .typeError

/-- Merge a sequence of elements into the dict one by one; an error leaves the
already-merged prefix in place (CPython mutates incrementally). -/
def updateSeq : SessionMap → List JVal → Option PyErr × SessionMap
  | m, [] => (none, m)
  | m, e :: rest =>
    match pairFromElem e with
    | .error err => (some err, m)
    | .ok (k, v) => updateSeq (setPyKey m k v) rest

/-- Python `dict.update(data)` on a JSON-decoded `data` value. -/
def dictUpdate (m : SessionMap) : JVal → Option PyErr × SessionMap
  | .jobj fields => (none, fields.foldl (fun acc kv => setPyKey acc (.kstr kv.1) kv.2) m)
  | .jarr elems => updateSeq m elems
  | .jstr s => if s.data.isEmpty then (none, m) else (some .valueError, m)
  | _ => (some .typeError, m)

/-- Mirrors `load_sessions_from_workspace`.  `fileContents = none` models an
absent file; `some none` models an unreadable file or one whose text fails
`json.loads` (both caught by the `except` clause); `some (some j)` models a
file that decodes to the JSON value `j`.  The result pairs the escaping
exception (if any) with the final in-memory map. -/
def loadSessionsFromWorkspace (fileContents : Option (Option JVal)) (m : SessionMap) :
    Option PyErr × SessionMap :=
  match fileContents with
  | none => (none, m)
  | some none => (none, m)
  | some (some j) => dictUpdate m j

/-! ## C8: gitignore-aware workspace snapshot

Mirrors `CliProviderBase._snapshot_workspace` and `_load_gitignore_spec`
(cli_provider_base.py lines 993-1052).  The filesystem walk (`Path.rglob`
restricted to regular files) is modelled as a list of files given by their
relative-path segments; the filter conditions are transcribed from the
source: hidden or excluded *directory* segments (`rel.parts[:-1]`), the file
blacklist (`rel.name`), and the gitignore layer. -/

/-- A regular file in the workspace tree: its relative path split into
segments (the last one being the file name), with its `stat` size and
mtime. -/
structure FsFile where
  parts : List String
  size : Int
  mtime : Int
  deriving DecidableEq

/-- The fixed directory exclusion set (`_SCAN_EXCLUDE_DIRS`). -/
def SCAN_EXCLUDE_DIRS : List String :=
  ["__pycache__", ".git", ".venv", "venv", "node_modules",
   ".mypy_cache", ".pytest_cache", "attachments",
   "dist", ".build", "Build", "DerivedData",
   "Pods", ".dart_tool", ".pub-cache",
   ".gradle", ".idea", ".vs", ".vscode",
   "target", "obj",
   "coverage", ".nyc_output",
   "generated"]

/-- The fixed file-name blacklist (`_SCAN_EXCLUDE_FILES`). -/
def SCAN_EXCLUDE_FILES : List String :=
  ["firebase-debug.log", ".DS_Store", "Thumbs.db", "desktop.ini"]

/-- Hidden directories that are still scanned (`_SNAPSHOT_HIDDEN_WHITELIST`). -/
def SNAPSHOT_HIDDEN_WHITELIST : List String := [".github"]

/-- Python `part.startswith(".")`. -/
def pyStartsWithDot (s : String) : Bool :=
  match s.data with
  | c :: _ => c == '.'
  | [] => false

/-- Modelled from the spec's gitignore layer ("apply its glob patterns as an
additional exclusion layer"): the two gitwildmatch pattern forms the
`pathspec` dependency is exercised with here — a trailing-slash pattern
naming a directory, and a slash-free shell-glob pattern matched against any
path segment. -/
inductive GitignorePattern where
  | dirPattern (name : String)
  | nameGlob (pat : String)
  deriving DecidableEq

/-- Shell-glob matching with `*` wildcards (fuel-structured; the fuel is
always sufficient at `pat.length + s.length + 1`). -/
def globAux : Nat → List Char → List Char → Bool
  | _, [], [] => true
  | 0, _, _ => false
  | fuel + 1, '*' :: ps, [] => globAux fuel ps []
  | fuel + 1, '*' :: ps, c :: ss => globAux fuel ps (c :: ss) || globAux fuel ('*' :: ps) ss
  | fuel + 1, p :: ps, c :: ss => p == c && globAux fuel ps ss
  | _, _ :: _, [] => false
  | _, [], _ :: _ => false

/-- Shell-glob match of a whole string. -/
def globMatch (pat s : String) : Bool :=
  globAux (pat.data.length + s.data.length + 1) pat.data s.data

/-- Python `line.endswith("/")`. -/
def pyEndsWithSlash (s : String) : Bool :=
  match s.data.getLast? with
  | some c => c == '/'
  | none => false

/-- Parse one `.gitignore` line into the modelled pattern forms. -/
def parseGitignoreLine (line : String) : Option GitignorePattern :=
  if line = "" then none
  else if pyEndsWithSlash line then some (.dirPattern (String.mk line.data.dropLast))
  else if line.data.contains '/' then none
  else some (.nameGlob line)

/-- Does one gitignore pattern match a file path?  A directory pattern
matches every file lying under a directory of that name at any depth; a
slash-free glob matches when any path segment matches it. -/
def gitignoreMatches (p : GitignorePattern) (parts : List String) : Bool :=
  match p with
  | .dirPattern d => parts.dropLast.contains d
  | .nameGlob g => parts.any fun seg => globMatch g seg

/-- The filter of `_snapshot_workspace`: a file survives when no ancestor
segment is hidden (unless whitelisted) or in the exclusion set, its name is
not blacklisted, and no gitignore pattern matches it. -/
def snapshotKeeps (gitignore : List GitignorePattern) (f : FsFile) : Bool :=
  !(f.parts.dropLast.any fun part =>
      (pyStartsWithDot part && !SNAPSHOT_HIDDEN_WHITELIST.contains part) ||
        SCAN_EXCLUDE_DIRS.contains part) &&
  !(SCAN_EXCLUDE_FILES.contains (f.parts.getLast?.getD "")) &&
  !(gitignore.any fun p => gitignoreMatches p f.parts)

/-- Join path segments with `/` (the `str(rel)` key of the snapshot). -/
def joinPath (parts : List String) : String := String.intercalate "/" parts

/-- Mirrors `_snapshot_workspace` on a modelled file tree: each surviving
regular file contributes `relative_path → (st_size, st_mtime_ns)`. -/
def snapshotWorkspace (files : List FsFile) (gitignore : List GitignorePattern) :
    Snapshot :=
  files.filterMap fun f =>
    if snapshotKeeps gitignore f then some (joinPath f.parts, (f.size, f.mtime)) else none

/-- The workspace of the claim: `main.py`, `debug.log`, `build/out.js` and the
root `.gitignore` file itself. -/
def gitignoreScenarioFiles : List FsFile :=
  [{ parts := ["main.py"], size := 10, mtime := 100 },
   { parts := ["debug.log"], size := 20, mtime := 101 },
   { parts := ["build", "out.js"], size := 30, mtime := 102 },
   { parts := [".gitignore"], size := 12, mtime := 103 }]

/-- The patterns of the claim's root `.gitignore`: `*.log` and `build/`. -/
def gitignoreScenarioPatterns : List GitignorePattern :=
  ["*.log", "build/"].filterMap parseGitignoreLine

/-! ## C5: `$ENV{NAME}` placeholder resolution and the servers document

Mirrors `CliProviderBase._resolve_env_str` / `_resolve_env_dict`
(cli_provider_base.py lines 923-979) and the server-collection loop of
`_create_mcp_config` (lines 805-891).  `re.sub` with the pattern
`\$ENV\{[A-Za-z0-9_]+\}` is modelled as a left-to-right scanner over the
character list; replacement text is not rescanned, and an unbound variable
keeps the matched text and clears the `ok` flag while scanning continues. -/

/-- The environment mapping handed to the resolver (process environment plus
`WORKSPACE_ROOT`). -/
abbrev EnvMap := List (String × String)

/-- Environment lookup (`env_map.get(var_name)`). -/
def lookupEnv (env : EnvMap) (v : String) : Option String := List.lookup v env

/-- A character of the placeholder-name class `[A-Za-z0-9_]`. -/
def isEnvWordChar (c : Char) : Bool :=
  ('A' ≤ c && c ≤ 'Z') || ('a' ≤ c && c ≤ 'z') || ('0' ≤ c && c ≤ '9') || c == '_'

/-- Attempt to read `ENV{NAME}` (the part after a `$`): returns the name and
the remainder on a well-formed placeholder, `none` otherwise. -/
def parsePlaceholder (l : List Char) : Option (List Char × List Char) :=
  match l with
  | c1 :: c2 :: c3 :: c4 :: rest =>
    if c1 = 'E' ∧ c2 = 'N' ∧ c3 = 'V' ∧ c4 = '\x7b' then
      if (rest.takeWhile isEnvWordChar).isEmpty then none
      else
        match rest.dropWhile isEnvWordChar with
        | c5 :: rem => if c5 = '\x7d' then some (rest.takeWhile isEnvWordChar, rem) else none
        | [] => none
    else none
  | _ => none

/-- Left-to-right scanner implementing
`_ENV_PLACEHOLDER.sub(replacer, value)` together with the `ok` flag of
`_resolve_env_str`: each well-formed `$ENV{NAME}` is replaced by its binding,
an unbound name keeps the matched text and clears `ok`, and all other
characters are copied.  The fuel argument is always called with
`l.length`, which suffices since every step consumes at least one
character. -/
def scanEnv (env : EnvMap) : Nat → List Char → List Char × Bool
  | _, [] => ([], true)
  | 0, l => (l, true)
  | fuel + 1, c :: rest =>
    if c = '$' then
      match parsePlaceholder rest with
      | some (w, rem) =>
        match lookupEnv env (String.mk w) with
        | some val =>
          (val.data ++ (scanEnv env fuel rem).1, (scanEnv env fuel rem).2)
        | none =>
          ('$' :: 'E' :: 'N' :: 'V' :: '\x7b' :: (w ++ '\x7d' :: (scanEnv env fuel rem).1), false)
      | none => (c :: (scanEnv env fuel rest).1, (scanEnv env fuel rest).2)
    else (c :: (scanEnv env fuel rest).1, (scanEnv env fuel rest).2)

/-- Mirrors `CliProviderBase._resolve_env_str`: the substituted string and the
`ok` flag. -/
def resolveEnvStr (value : String) (env : EnvMap) : String × Bool :=
  (String.mk (scanEnv env value.data.length value.data).1,
   (scanEnv env value.data.length value.data).2)

/-- The names of the well-formed `$ENV{NAME}` placeholders occurring in a
character list (same scan as `scanEnv`, collecting instead of replacing). -/
def phVarsAux : Nat → List Char → List String
  | _, [] => []
  | 0, _ => []
  | fuel + 1, c :: rest =>
    if c = '$' then
      match parsePlaceholder rest with
      | some (w, rem) => String.mk w :: phVarsAux fuel rem
      | none => phVarsAux fuel rest
    else phVarsAux fuel rest

/-- The placeholder names referenced by a string field. -/
def phVars (value : String) : List String := phVarsAux value.data.length value.data

/-- A tool-server entry before/after resolution: local entries use `command`,
`args`, optional `env` and `cwd`; remote entries use `type = http`, `url` and
optional `headers` (an absent optional dict and an empty one coincide, as in
the source where falsy dicts are never attached). -/
structure McpEntry where
  command : Option String := none
  args : List String := []
  cwd : Option String := none
  url : Option String := none
  env : List (String × String) := []
  headers : List (String × String) := []
  entryType : Option String := none
  deriving DecidableEq

/-- Resolve an optional string field. -/
def resolveOptStr (o : Option String) (env : EnvMap) : Option String × Bool :=
  match o with
  | none => (none, true)
  | some s => (some (resolveEnvStr s env).1, (resolveEnvStr s env).2)

/-- The accumulated `all_ok` flag of `_resolve_env_dict`. -/
def entryAllOk (e : McpEntry) (env : EnvMap) : Bool :=
  (e.args.all fun a => (resolveEnvStr a env).2) &&
  (resolveOptStr e.cwd env).2 &&
  (resolveOptStr e.url env).2 &&
  (resolveOptStr e.command env).2 &&
  (e.env.all fun kv => (resolveEnvStr kv.2 env).2) &&
  (e.headers.all fun kv => (resolveEnvStr kv.2 env).2)

/-- Mirrors `CliProviderBase._resolve_env_dict`: substitute every string
field; return the entry when `all_ok`, else `None`. -/
def resolveEnvDict (e : McpEntry) (env : EnvMap) : Option McpEntry :=
  if entryAllOk e env then
    some { e with
      command := (resolveOptStr e.command env).1,
      args := e.args.map fun a => (resolveEnvStr a env).1,
      cwd := (resolveOptStr e.cwd env).1,
      url := (resolveOptStr e.url env).1,
      env := e.env.map fun kv => (kv.1, (resolveEnvStr kv.2 env).1),
      headers := e.headers.map fun kv => (kv.1, (resolveEnvStr kv.2 env).1) }
  else none

/-- The placeholder names of an optional string field. -/
def optVars : Option String → List String
  | none => []
  | some s => phVars s

/-- All placeholder names referenced by an entry's string fields. -/
def entryVars (e : McpEntry) : List String :=
  optVars e.command ++ e.args.flatMap phVars ++ optVars e.cwd ++ optVars e.url ++
    (e.env.map Prod.snd).flatMap phVars ++ (e.headers.map Prod.snd).flatMap phVars

/-- A tooling spec from the YAML configuration: local and remote MCP servers
with an optional `prefix`; `other` models the non-MCP types the loop skips. -/
inductive ToolingSpec where
  | mcpLocal (prefixName : Option String) (command : String) (args : List String)
      (env : List (String × String)) (cwd : Option String)
  | mcpRemote (prefixName : Option String) (server : String)
      (headers : List (String × String))
  | other
  deriving DecidableEq

/-- The unresolved entry a spec contributes (`entry` / `entry_r` in
`_create_mcp_config`); `none` for the skipped non-MCP types. -/
def specEntry : ToolingSpec → Option McpEntry
  | .mcpLocal _ command args env cwd =>
    some { command := some command, args := args, env := env, cwd := cwd }
  | .mcpRemote _ server headers =>
    some { entryType := some "http", url := some server, headers := headers }
  | .other => none

/-- Python `str.strip()` (whitespace at both ends). -/
def pyStrip (s : String) : String :=
  String.mk (((s.data.dropWhile Char.isWhitespace).reverse.dropWhile Char.isWhitespace).reverse)

/-- The `prefix` of a spec. -/
def specPrefixName : ToolingSpec → Option String
  | .mcpLocal p _ _ _ _ => p
  | .mcpRemote p _ _ => p
  | .other => none

/-- Server name derivation: the stripped prefix when non-empty, otherwise the
inferred name (the hostname-stem / first-arg inference is abstracted as
`inferName` — the claims do not depend on its details). -/
def serverBaseName (inferName : ToolingSpec → String) (spec : ToolingSpec) : String :=
  if pyStrip ((specPrefixName spec).getD "") = "" then inferName spec
  else pyStrip ((specPrefixName spec).getD "")

/-- Candidate server name for a base and counter (`f"{base_name}-{counter}"`
from the second candidate on). -/
def nameFor (base : String) (counter : Nat) : String :=
  if 1 < counter then base ++ "-" ++ toString counter else base

/-- Seen-counter bookkeeping (`_seen_counter[base_name] = counter`). -/
def setSeen : List (String × Nat) → String → Nat → List (String × Nat)
  | [], k, v => [(k, v)]
  | (k', w) :: rest, k, v =>
    if k' = k then (k', v) :: rest else (k', w) :: setSeen rest k v

/-- The `while server_name in servers` collision loop; the fuel is called
with `servers.length + 1`, which suffices because candidates for distinct
counters are distinct while the document is finite. -/
def collisionLoop (servers : List (String × McpEntry)) (base : String) :
    Nat → Nat → String × Nat
  | 0, counter => (nameFor base counter, counter)
  | fuel + 1, counter =>
    if servers.any fun kv => kv.1 == nameFor base counter then
      collisionLoop servers base fuel (counter + 1)
    else (nameFor base counter, counter)

/-- The collision-free name (and final counter) picked for a base name. -/
def pickedName (servers : List (String × McpEntry)) (seen : List (String × Nat))
    (base : String) : String × Nat :=
  collisionLoop servers base (servers.length + 1) ((List.lookup base seen).getD 0 + 1)

/-- One iteration of the server-collection loop of `_create_mcp_config`:
derive the name, update the seen-counter, resolve the entry's placeholders —
a `None` resolution drops the entry (`continue`), a successful one appends
`servers[server_name] = resolved`. -/
def addServer (inferName : ToolingSpec → String) (env : EnvMap)
    (servers : List (String × McpEntry)) (seen : List (String × Nat))
    (spec : ToolingSpec) (entry : McpEntry) :
    List (String × McpEntry) × List (String × Nat) :=
  match resolveEnvDict entry env with
  | none =>
    (servers,
     setSeen seen (serverBaseName inferName spec)
       (pickedName servers seen (serverBaseName inferName spec)).2)
  | some resolved =>
    (servers ++ [((pickedName servers seen (serverBaseName inferName spec)).1, resolved)],
     setSeen seen (serverBaseName inferName spec)
       (pickedName servers seen (serverBaseName inferName spec)).2)

/-- The server-collection loop over the tooling specs (the built-in reporter
entry and the provider-specific JSON wrapping are orthogonal to resolution
and outside this claim). -/
def buildServers (inferName : ToolingSpec → String) (env : EnvMap) :
    List ToolingSpec → List (String × McpEntry) → List (String × Nat) →
      List (String × McpEntry)
  | [], servers, _ => servers
  | spec :: rest, servers, seen =>
    match specEntry spec with
    | none => buildServers inferName env rest servers seen
    | some entry =>
      buildServers inferName env rest
        (addServer inferName env servers seen spec entry).1
        (addServer inferName env servers seen spec entry).2

/-- The emitted `servers` mapping of `_create_mcp_config` for a list of
tooling specs. -/
def createMcpServers (inferName : ToolingSpec → String) (env : EnvMap)
    (specs : List ToolingSpec) : List (String × McpEntry) :=
  buildServers inferName env specs [] []

/-- Prefix test on character lists. -/
def isPrefixChars : List Char → List Char → Bool
  | [], _ => true
  | _ :: _, [] => false
  | p :: ps, c :: cs => p == c && isPrefixChars ps cs

/-- Substring test on character lists (Python `sub in s`). -/
def containsSubChars : List Char → List Char → Bool
  | pat, [] => pat.isEmpty
  | pat, c :: cs => isPrefixChars pat (c :: cs) || containsSubChars pat cs

/-- Literal occurrence of the substring `$ENV{`. -/
def containsEnvOpen (s : String) : Bool := containsSubChars "$ENV\x7b".data s.data

/-- An entry whose `command` is the malformed text `$ENV{` — not a well-formed
placeholder, so it references no variable. -/
def malformedEntry : McpEntry := { command := some "$ENV\x7b" }

/-- An entry whose `command` is the placeholder `$ENV{X}`. -/
def substEntry : McpEntry := { command := some "$ENV\x7bX\x7d" }

/-- An environment binding `X` to text that itself contains a placeholder. -/
def substEnv : EnvMap := [("X", "$ENV\x7bY\x7d")]

/-! ## C1 and C6: the `call_model` orchestration

Mirrors `CliProviderBase.call_model` (cli_provider_base.py lines 215-376)
together with `_resume_after_stall`, `_resume_for_completion` and
`_build_stream_response`.  Supervisor runs are an oracle `runs : Nat → RunOut`
consumed in order; each `_build_command` / `_build_resume_command` call is
recorded as a `RunCmd`, orchestrator-level callback emissions as `CbEvent`s,
and the per-provider session registry as explicit state.  Python truthiness
(`if node_id`, `x or y`, `configured_turns or 20`) is preserved via
`optStrTruthy` / `pyOr` / `natOr`.  Prompt assembly, the MCP config file,
workspace snapshots and token accounting do not affect the claims and are
carried as opaque data. -/

/-- The per-provider session registry (`_sessions`): node id to session id. -/
abbrev Registry := List (String × String)

/-- Mirrors `get_session`. -/
def getSession (reg : Registry) (node : String) : Option String := List.lookup node reg

/-- Mirrors `set_session` (dict assignment). -/
def setSession : Registry → String → String → Registry
  | [], node, sid => [(node, sid)]
  | (k, v) :: rest, node, sid =>
    if k = node then (k, sid) :: rest else (k, v) :: setSession rest node sid

/-- Mirrors `clear_session` (`dict.pop(node_id, None)`). -/
def clearSession : Registry → String → Registry
  | [], _ => []
  | (k, v) :: rest, node => if k = node then rest else (k, v) :: clearSession rest node

/-- One supervisor invocation's command: fresh (`_build_command`) or resume
(`_build_resume_command`). -/
inductive RunCmd where
  | fresh (prompt : String) (sessionId : Option String) (maxTurns : Nat)
  | resume (sessionId : String) (prompt : String) (maxTurns : Nat)
  deriving DecidableEq

/-- Orchestrator-level callback emissions (`stall_detected`). -/
inductive CbEvent where
  | stallDetected (sessionId : String) (idleTimeout : Nat)
  deriving DecidableEq

/-- The `(raw_response, stderr_text)` pair a supervisor run returns. -/
structure RunOut where
  resp : RawResponse
  stderr : String
  deriving DecidableEq

/-- The observable outcome of a `call_model` invocation: the returned
assistant message content, the supervisor commands issued in order, the
callback events emitted by the orchestrator, and the final registry. -/
structure CallOutcome where
  content : String
  cmds : List RunCmd
  events : List CbEvent
  registry : Registry
  deriving DecidableEq

/-- The per-invocation inputs of `call_model` that the claims depend on. -/
structure CallCtx where
  nodeId : Option String
  configuredTurns : Option Nat
  callbackPresent : Bool
  idleTimeout : Nat
  prompt : String
  binary : String
  deriving DecidableEq

/-- The fixed stall prompt of `_resume_after_stall`. -/
def stallPrompt : String :=
  "Your previous session was interrupted due to inactivity. " ++
  "Continue where you left off and complete your remaining work."

/-- The fixed completion prompt of `_resume_for_completion`. -/
def completionPrompt : String :=
  "Your previous response was incomplete — you ran out of turns before " ++
  "writing your deliverable. Please write your COMPLETE deliverable now. " ++
  "Do NOT do any more research or tool calls. Use the knowledge you already " ++
  "gathered to produce your full output document immediately."

/-- Python `s.lower()`. -/
def pyLower (s : String) : String := String.mk (s.data.map Char.toLower)

/-- Python `sub in s`. -/
def strContains (s sub : String) : Bool := containsSubChars sub.data s.data

/-- Mirrors `_build_stream_response`: the message content is the result text,
or a stderr-derived error message when the result is empty and stderr is
not. -/
def buildContent (binary : String) (r : RawResponse) (stderr : String) : String :=
  if r.result.getD "" = "" ∧ stderr ≠ "" then
    "[" ++ binary ++ " Error]: " ++ pySlice stderr 500
  else r.result.getD ""

/-- Mirrors `existing_session`: the registry binding for `node_id`
(`self.get_session(node_id) if node_id else None`). -/
def existingOf (ctx : CallCtx) (reg : Registry) : Option String :=
  if optStrTruthy ctx.nodeId then getSession reg (ctx.nodeId.getD "") else none

/-- The first command: `_build_command(client, prompt, existing_session,
mcp_config_path, max_turns)` with
`max_turns = configured_turns or (40 if existing_session else 30)`. -/
def initialCmd (ctx : CallCtx) (reg : Registry) : RunCmd :=
  RunCmd.fresh ctx.prompt (existingOf ctx reg)
    (natOr ctx.configuredTurns (if optStrTruthy (existingOf ctx reg) then 40 else 30))

/-- Mirrors `stall_session`: the stalled run's session id, falling back to the
registry (`raw_response.get("session_id") or (self.get_session(node_id) if
node_id else None)`). -/
def stallSessionOf (ctx : CallCtx) (reg : Registry) (r0 : RawResponse) : Option String :=
  pyOr r0.session_id (if optStrTruthy ctx.nodeId then getSession reg (ctx.nodeId.getD "") else none)

/-- The resume command built by `_resume_after_stall`:
`build_resume_command(stall_session, stall_prompt, config_path,
configured_turns or 20)`. -/
def stallResumeCmd (ctx : CallCtx) (reg : Registry) (runs : Nat → RunOut) : RunCmd :=
  RunCmd.resume ((stallSessionOf ctx reg (runs 0).resp).getD "") stallPrompt
    (natOr ctx.configuredTurns 20)

/-- The orchestrator-level callback emissions of the stall branch: one
`stall_detected(session_id, idle_timeout)` when a callback is present. -/
def stallEvents (ctx : CallCtx) (reg : Registry) (runs : Nat → RunOut) : List CbEvent :=
  if ctx.callbackPresent then
    [CbEvent.stallDetected ((stallSessionOf ctx reg (runs 0).resp).getD "") ctx.idleTimeout]
  else []

/-- Step 12 of the pipeline: `if new_session_id and node_id:
set_session(node_id, new_session_id)`. -/
def savedRegistry (ctx : CallCtx) (reg : Registry) (r : RawResponse) : Registry :=
  if optStrTruthy r.session_id ∧ optStrTruthy ctx.nodeId then
    setSession reg (ctx.nodeId.getD "") (r.session_id.getD "")
  else reg

/-- Mirrors `resume_sid`: `new_session_id or (self.get_session(node_id) if
node_id else None)`, read after the step-12 save. -/
def completionSid (ctx : CallCtx) (reg : Registry) (r : RawResponse) : Option String :=
  pyOr r.session_id
    (if optStrTruthy ctx.nodeId then getSession (savedRegistry ctx reg r) (ctx.nodeId.getD "")
     else none)

/-- The output-validation condition of step 13: a known session id, a result
shorter than 1000 characters, a falsy `error` field, and not a
continuation. -/
def completionCheck (ctx : CallCtx) (isCont : Bool) (reg : Registry) (r : RawResponse) : Bool :=
  optStrTruthy (completionSid ctx reg r) &&
  Nat.blt (r.result.getD "").length 1000 &&
  !optStrTruthy r.error &&
  !isCont

/-- Steps 12-14 of `call_model`: save the session, optionally run
`_resume_for_completion` once (updating the registry when the second run
yields a session id), and build the final response. -/
def finishPhase (ctx : CallCtx) (isCont : Bool) (reg : Registry) (r : RawResponse)
    (stderr : String) (runs : Nat → RunOut) (k : Nat)
    (cmds : List RunCmd) (events : List CbEvent) : CallOutcome :=
  if completionCheck ctx isCont reg r then
    { content := buildContent ctx.binary (runs k).resp (runs k).stderr,
      cmds := cmds ++ [RunCmd.resume ((completionSid ctx reg r).getD "") completionPrompt
        (natOr ctx.configuredTurns 20)],
      events := events,
      registry := savedRegistry ctx (savedRegistry ctx reg r) (runs k).resp }
  else
    { content := buildContent ctx.binary r stderr, cmds := cmds, events := events,
      registry := savedRegistry ctx reg r }

/-- Step 9 of `call_model`: when a continuation's error mentions `session` or
`resume`, clear the registry entry and retry once with a fresh command
(`configured_turns or 30`); a timeout on the retry surfaces immediately. -/
def retryPhase (ctx : CallCtx) (isCont : Bool) (existing : Option String) (reg : Registry)
    (r : RawResponse) (stderr : String) (runs : Nat → RunOut) (k : Nat)
    (cmds : List RunCmd) (events : List CbEvent) : CallOutcome :=
  if optStrTruthy existing = true ∧ r.error.getD "" ≠ "" ∧
      (strContains (pyLower (r.error.getD "")) "session" = true ∨
       strContains (pyLower (r.error.getD "")) "resume" = true) then
    if (runs k).resp.error = some "timeout" then
      { content := "[Error: " ++ ctx.binary ++ " CLI timed out on retry]",
        cmds := cmds ++ [RunCmd.fresh ctx.prompt none (natOr ctx.configuredTurns 30)],
        events := events,
        registry := if optStrTruthy ctx.nodeId then clearSession reg (ctx.nodeId.getD "")
          else reg }
    else
      finishPhase ctx isCont
        (if optStrTruthy ctx.nodeId then clearSession reg (ctx.nodeId.getD "") else reg)
        (runs k).resp (runs k).stderr runs (k + 1)
        (cmds ++ [RunCmd.fresh ctx.prompt none (natOr ctx.configuredTurns 30)]) events
  else finishPhase ctx isCont reg r stderr runs k cmds events

/-- Mirrors `CliProviderBase.call_model`: the initial supervisor run, the
timeout and stall branches, the resume-failure retry, the session save, the
completion recheck, and the final response. -/
def callModel (ctx : CallCtx) (reg : Registry) (runs : Nat → RunOut) : CallOutcome :=
  if (runs 0).resp.error = some "timeout" then
    { content := "[Error: " ++ ctx.binary ++ " CLI timed out]",
      cmds := [initialCmd ctx reg], events := [],
      registry :=
        if optStrTruthy ctx.nodeId ∧ optStrTruthy (existingOf ctx reg) = false then
          clearSession reg (ctx.nodeId.getD "")
        else reg }
  else if (runs 0).resp.error = some "stall" then
    if optStrTruthy (stallSessionOf ctx reg (runs 0).resp) then
      if (runs 1).resp.error = some "timeout" ∨ (runs 1).resp.error = some "stall" then
        { content := "[Error: Agent stalled and recovery failed]",
          cmds := [initialCmd ctx reg, stallResumeCmd ctx reg runs],
          events := stallEvents ctx reg runs,
          registry :=
            if optStrTruthy ctx.nodeId then clearSession reg (ctx.nodeId.getD "") else reg }
      else
        retryPhase ctx (existingOf ctx reg).isSome (existingOf ctx reg) reg
          (runs 1).resp (runs 1).stderr runs 2
          [initialCmd ctx reg, stallResumeCmd ctx reg runs] (stallEvents ctx reg runs)
    else
      { content := "[Error: Agent stalled, no session to resume]",
        cmds := [initialCmd ctx reg], events := [], registry := reg }
  else
    retryPhase ctx (existingOf ctx reg).isSome (existingOf ctx reg) reg
      (runs 0).resp (runs 0).stderr runs 1 [initialCmd ctx reg] []

/-- A `call_model` context with no streaming callback supplied. -/
def c1NoCbCtx : CallCtx :=
  { nodeId := some "n", configuredTurns := none, callbackPresent := false,
    idleTimeout := 42, prompt := "p", binary := "claude" }

/-- Supervisor outcomes: the first run stalls carrying session `S`, the
resume run completes normally. -/
def c1NoCbRuns : Nat → RunOut := fun k =>
  if k = 0 then { resp := { error := some "stall", session_id := some "S" }, stderr := "" }
  else { resp := { result := some "done", session_id := some "S" }, stderr := "" }

/-- A `call_model` context with a streaming callback present. -/
def c1CbCtx : CallCtx :=
  { nodeId := some "n", configuredTurns := none, callbackPresent := true,
    idleTimeout := 42, prompt := "p", binary := "claude" }

/-- Supervisor outcomes: the first run stalls carrying session `S`, the
resume run times out (failed recovery). -/
def c1FailRuns : Nat → RunOut := fun k =>
  if k = 0 then { resp := { error := some "stall", session_id := some "S" }, stderr := "" }
  else { resp := { error := some "timeout" }, stderr := "" }

/-- The context of the completion-resume witness. -/
def c6Ctx : CallCtx :=
  { nodeId := some "n", configuredTurns := none, callbackPresent := false,
    idleTimeout := 0, prompt := "p", binary := "claude" }

/-- A fresh call's short, error-free response carrying session `T`. -/
def c6Resp : RawResponse := { result := some "ok", session_id := some "T" }

/-- The completion run's outcome, yielding session `T2`. -/
def c6Runs : Nat → RunOut := fun _ =>
  { resp := { result := some "full deliverable", session_id := some "T2" }, stderr := "" }

/-!
## Theorems

The claim theorems, their witnesses and counterexamples, and the
supporting lemmas, in the order of the definitions above.
-/

theorem pySlice_length_le (s : String) (n : Nat) : (pySlice s n).length ≤ n := by
  have h : (pySlice s n).length = (s.data.take n).length := rfl
  rw [h, List.length_take]
  exact Nat.min_le_left _ _

/-- C4 counterexample.  The claim states that every supervisor run, including
the runs classified as `timeout` and as `stall`, carries `_returncode`.  In
the code the timeout and stall paths return early, before `_returncode` is
set: both the NDJSON supervisor and the Copilot plain-text supervisor emit a
response without the key on those paths. -/
theorem returncode_missing_on_timeout_and_stall :
    (runStreamingReturn true false none [] none 0).returncode = none ∧
    (runStreamingReturn false true none [] (some "S") 0).returncode = none ∧
    (copilotRunReturn true false [] none 0).returncode = none ∧
    (copilotRunReturn false true [] (some "S") 0).returncode = none := by
  exact ⟨rfl, rfl, rfl, rfl⟩

/-- C4 (amended).  The `RawResponse` returned by the streaming supervisor
includes `_returncode` (the child's exit status) exactly on the runs that are
not classified `timeout` or `stall`; those two classifications return a
response without the key. -/
theorem returncode_on_normal_runs (rd : Option RawResponse) (acc acc2 : List String)
    (sid sid2 : Option String) (rc rc2 : Int) :
    (runStreamingReturn false false rd acc sid rc).returncode = some rc ∧
    (copilotRunReturn false false acc2 sid2 rc2).returncode = some rc2 ∧
    (runStreamingReturn true false rd acc sid rc).returncode = none ∧
    (runStreamingReturn false true rd acc sid rc).returncode = none ∧
    (copilotRunReturn true false acc2 sid2 rc2).returncode = none ∧
    (copilotRunReturn false true acc2 sid2 rc2).returncode = none := by
  exact ⟨rfl, rfl, rfl, rfl, rfl, rfl⟩

/-- C2 counterexample.  The claim bounds the attached result string by 200
characters for every possible tool result value, but a *string* tool result
is attached unchanged: a 201-character Gemini `tool_result` output passes
through `_normalize_event` and the `tool_end` branch untouched. -/
theorem tool_result_not_truncated_for_strings :
    200 < (toolEndAttachedResult (geminiToolResultField (.pstr longToolResult))).length := by
  have h : toolEndAttachedResult (geminiToolResultField (.pstr longToolResult))
      = longToolResult := rfl
  have h2 : longToolResult.length = (List.replicate 201 'a').length := rfl
  rw [h, h2, List.length_replicate]
  decide

/-- C2 (amended).  On a `tool_end` event with a pending tool and a callback
present, a non-string tool result is stringified and truncated to at most 200
characters before being attached to the payload, while a string tool result
is attached unchanged (and may exceed 200 characters). -/
theorem tool_result_truncation (s rep : String) (t : Bool) :
    toolEndAttachedResult (.pstr s) = s ∧
    (toolEndAttachedResult .pnone).length ≤ 200 ∧
    (toolEndAttachedResult (.pother rep t)).length ≤ 200 ∧
    geminiToolResultField (.pstr s) = .pstr s ∧
    (PyVal.str (geminiToolResultField .pnone)).length ≤ 200 ∧
    (PyVal.str (geminiToolResultField (.pother rep t))).length ≤ 200 := by
  refine ⟨rfl, by decide, pySlice_length_le _ 200, rfl, by decide, pySlice_length_le _ 200⟩

/-- C3: evaluation of the kill profiles at the failing paths.  The spec makes
a group-wide kill mandatory on every abnormal path, and the base supervisor's
own `_kill_tree` documents the same requirement, yet the tool-call-deadline
path of the base supervisor kills only the direct child, and the Copilot
plain-text supervisor neither starts a new session nor kills a group on any
path. -/
theorem group_kill_not_delivered_everywhere :
    baseStreamingKills.toolCallKill = some .single ∧
    killsGroupWide baseStreamingKills = false ∧
    copilotStreamingKills.startNewSession = false ∧
    copilotStreamingKills.overallKill = .single ∧
    copilotStreamingKills.idleKill = .single ∧
    killsGroupWide copilotStreamingKills = false ∧
    providerStreamingKills.all (fun p => !killsGroupWide p.2) = true := by
  decide

theorem lookupCount_setCount (st : LoopState) (n : String) (v : Nat) :
    lookupCount (setCount st n v) n = some v := by
  induction st with
  | nil => simp [setCount, lookupCount, List.lookup]
  | cons kv rest ih =>
    obtain ⟨k, w⟩ := kv
    by_cases hk : k = n
    · subst hk
      simp [setCount, lookupCount, List.lookup]
    · have hbeq : (n == k) = false := beq_eq_false_iff_ne.mpr (Ne.symm hk)
      simp only [setCount, if_neg hk, lookupCount, List.lookup, hbeq]
      exact ih

theorem loopCounterExecute_lt (cfg : LoopCounterConfig) (node : String)
    (state : LoopState) (inputs : List Message)
    (hlt : ((((lookupCount state node).getD 0 + 1 : Nat) : Int) < cfg.max_iterations)) :
    loopCounterExecute cfg node state inputs =
      (inputs, setCount state node ((lookupCount state node).getD 0 + 1)) := by
  simp only [loopCounterExecute]
  rw [if_pos hlt]

theorem loopCounterExecute_ge (cfg : LoopCounterConfig) (node : String)
    (state : LoopState) (inputs : List Message)
    (hge : cfg.max_iterations ≤ (((lookupCount state node).getD 0 + 1 : Nat) : Int)) :
    loopCounterExecute cfg node state inputs =
      ([{ role := .assistant,
          content := LOOP_EXIT_MARKER ++ ": " ++ loopExitRawMessage cfg,
          loopMeta := some { count := (lookupCount state node).getD 0 + 1,
                             maxIter := cfg.max_iterations,
                             resetOnEmit := cfg.reset_on_emit } }],
       setCount state node
         (if cfg.reset_on_emit then 0 else (lookupCount state node).getD 0 + 1)) := by
  simp only [loopCounterExecute]
  rw [if_neg (not_lt.mpr hge)]

/-- C10.  Every `execute` call increments the per-node counter by exactly one;
while the incremented count is strictly below `max_iterations` the inputs are
returned unchanged; once it reaches or exceeds `max_iterations` the result is
exactly one assistant message whose content starts with `"LOOP_EXIT: "`, and
the counter ends at 0 if and only if `reset_on_emit` is set. -/
theorem loopCounter_execute_spec (cfg : LoopCounterConfig) (node : String)
    (state : LoopState) (inputs : List Message) :
    (((((lookupCount state node).getD 0 + 1 : Nat) : Int) < cfg.max_iterations) →
      (loopCounterExecute cfg node state inputs).1 = inputs ∧
      lookupCount (loopCounterExecute cfg node state inputs).2 node =
        some ((lookupCount state node).getD 0 + 1)) ∧
    (cfg.max_iterations ≤ (((lookupCount state node).getD 0 + 1 : Nat) : Int) →
      (loopCounterExecute cfg node state inputs).1.length = 1 ∧
      (∀ m ∈ (loopCounterExecute cfg node state inputs).1,
        m.role = .assistant ∧
        List.IsPrefix (LOOP_EXIT_MARKER ++ ": ").data m.content.data) ∧
      lookupCount (loopCounterExecute cfg node state inputs).2 node =
        some (if cfg.reset_on_emit then 0 else (lookupCount state node).getD 0 + 1) ∧
      (lookupCount (loopCounterExecute cfg node state inputs).2 node = some 0 ↔
        cfg.reset_on_emit = true)) := by
  constructor
  · intro hlt
    rw [loopCounterExecute_lt cfg node state inputs hlt]
    exact ⟨rfl, lookupCount_setCount _ _ _⟩
  · intro hge
    rw [loopCounterExecute_ge cfg node state inputs hge]
    refine ⟨rfl, ?_, ?_, ?_⟩
    · intro m hm
      simp only [List.mem_singleton] at hm
      subst hm
      refine ⟨rfl, ⟨(loopExitRawMessage cfg).data, ?_⟩⟩
      simp
    · exact lookupCount_setCount _ _ _
    · rw [lookupCount_setCount]
      constructor
      · intro h
        by_contra hre
        simp only [Bool.not_eq_true] at hre
        simp [hre] at h
      · intro h
        simp [h]

/-- C10 witness: a configuration with `max_iterations = 3` on a fresh state
passes the inputs through with count 1, and with `max_iterations = 1` and
`reset_on_emit` it emits the exit message and resets the counter. -/
theorem loopCounter_execute_spec_witness :
    ((loopCounterExecute ⟨3, false, none⟩ "n" [] []).1 = [] ∧
      lookupCount (loopCounterExecute ⟨3, false, none⟩ "n" [] []).2 "n" = some 1) ∧
    ((loopCounterExecute ⟨1, true, none⟩ "n" [] []).1.length = 1 ∧
      lookupCount (loopCounterExecute ⟨1, true, none⟩ "n" [] []).2 "n" = some 0) := by
  have h1 := loopCounter_execute_spec ⟨3, false, none⟩ "n" [] []
  have h2 := loopCounter_execute_spec ⟨1, true, none⟩ "n" [] []
  refine ⟨(h1.1 (by decide)), ?_⟩
  obtain ⟨hlen, _, hstore, _⟩ := h2.2 (by decide)
  exact ⟨hlen, by simpa using hstore⟩

theorem mem_of_lookup_eq_some {β : Type} (l : List (String × β)) (p : String) (v : β)
    (h : List.lookup p l = some v) : (p, v) ∈ l := by
  induction l with
  | nil => simp [List.lookup] at h
  | cons hd tl ih =>
    obtain ⟨k, w⟩ := hd
    by_cases hk : p = k
    · subst hk
      simp only [List.lookup, beq_self_eq_true] at h
      cases h
      exact List.mem_cons_self _ _
    · have hbeq : (p == k) = false := beq_eq_false_iff_ne.mpr hk
      simp only [List.lookup, hbeq] at h
      exact List.mem_cons_of_mem _ (ih h)

theorem mem_iff_lookup_eq_some {β : Type} (l : List (String × β))
    (hl : (l.map Prod.fst).Nodup) (p : String) (v : β) :
    (p, v) ∈ l ↔ List.lookup p l = some v := by
  constructor
  · intro hmem
    induction l with
    | nil => simp at hmem
    | cons hd tl ih =>
      obtain ⟨k, w⟩ := hd
      simp only [List.map_cons, List.nodup_cons] at hl
      rcases List.mem_cons.mp hmem with heq | hmem'
      · cases heq
        simp [List.lookup]
      · have hk : p ≠ k := by
          intro hpk
          subst hpk
          exact hl.1 (List.mem_map.mpr ⟨(p, v), hmem', rfl⟩)

        have hbeq : (p == k) = false := beq_eq_false_iff_ne.mpr hk
        simp only [List.lookup, hbeq]
        exact ih hl.2 hmem'
  · exact mem_of_lookup_eq_some l p v

/-- Membership characterization of the diff in terms of the two snapshot
lookups only. -/
theorem mem_diffWorkspace_iff (before after : Snapshot)
    (hb : (before.map Prod.fst).Nodup) (ha : (after.map Prod.fst).Nodup)
    (c : Change) :
    c ∈ diffWorkspace before after ↔
      ((∃ s m, List.lookup c.path after = some (s, m) ∧
          List.lookup c.path before = none ∧ c.change = .created ∧ c.size = s) ∨
       (∃ s m s' m', List.lookup c.path after = some (s, m) ∧
          List.lookup c.path before = some (s', m') ∧ (s', m') ≠ (s, m) ∧
          c.change = .modified ∧ c.size = s) ∨
       ((List.lookup c.path before).isSome = true ∧ List.lookup c.path after = none ∧
          c.change = .deleted ∧ c.size = 0)) := by
  constructor
  · intro hc
    rcases List.mem_append.mp hc with h1 | h2
    · obtain ⟨⟨p, s, m⟩, hpafter, hf⟩ := List.mem_filterMap.mp h1
      have hlook : List.lookup p after = some (s, m) :=
        (mem_iff_lookup_eq_some after ha p (s, m)).mp hpafter
      rcases hbefore : List.lookup p before with _ | ⟨s', m'⟩
      · simp only [hbefore] at hf
        cases hf
        exact Or.inl ⟨s, m, hlook, hbefore, rfl, rfl⟩
      · simp only [hbefore] at hf
        by_cases hne : (s', m') ≠ (s, m)
        · rw [if_pos hne] at hf
          cases hf
          exact Or.inr (Or.inl ⟨s, m, s', m', hlook, hbefore, hne, rfl, rfl⟩)
        · rw [if_neg hne] at hf
          cases hf
    · obtain ⟨⟨p, s, m⟩, hpbefore, hf⟩ := List.mem_filterMap.mp h2
      by_cases hnone : (List.lookup p after).isNone = true
      · rw [if_pos hnone] at hf
        cases hf
        refine Or.inr (Or.inr ⟨?_, ?_, rfl, rfl⟩)
        · exact Option.isSome_iff_exists.mpr
            ⟨(s, m), (mem_iff_lookup_eq_some before hb p (s, m)).mp hpbefore⟩
        · exact Option.isNone_iff_eq_none.mp hnone
      · rw [if_neg hnone] at hf
        cases hf
  · intro h
    rcases h with ⟨s, m, hafter, hbefore, hchange, hsize⟩ |
      ⟨s, m, s', m', hafter, hbefore, hne, hchange, hsize⟩ |
      ⟨hbefore, hafter, hchange, hsize⟩
    · refine List.mem_append.mpr (Or.inl (List.mem_filterMap.mpr
        ⟨(c.path, s, m), mem_of_lookup_eq_some after c.path (s, m) hafter, ?_⟩))
      simp only [hbefore]
      obtain ⟨cp, cc, cs⟩ := c
      simp_all
    · refine List.mem_append.mpr (Or.inl (List.mem_filterMap.mpr
        ⟨(c.path, s, m), mem_of_lookup_eq_some after c.path (s, m) hafter, ?_⟩))
      simp only [hbefore, if_pos hne]
      obtain ⟨cp, cc, cs⟩ := c
      simp_all
    · obtain ⟨sm, hsm⟩ := Option.isSome_iff_exists.mp hbefore
      refine List.mem_append.mpr (Or.inr (List.mem_filterMap.mpr
        ⟨(c.path, sm), mem_of_lookup_eq_some before c.path sm hsm, ?_⟩))
      rw [if_pos (Option.isNone_iff_eq_none.mpr hafter)]
      obtain ⟨cp, cc, cs⟩ := c
      simp_all

theorem mem_createdPaths_iff (cs : List Change) (p : String) :
    p ∈ createdPaths cs ↔ ∃ c ∈ cs, c.change = ChangeKind.created ∧ c.path = p := by
  simp only [createdPaths, List.mem_map, List.mem_filter, beq_iff_eq]
  constructor
  · rintro ⟨c, ⟨hc, hk⟩, hp⟩
    exact ⟨c, hc, hk, hp⟩
  · rintro ⟨c, hc, hk, hp⟩
    exact ⟨c, ⟨hc, hk⟩, hp⟩

theorem mem_deletedPaths_iff (cs : List Change) (p : String) :
    p ∈ deletedPaths cs ↔ ∃ c ∈ cs, c.change = ChangeKind.deleted ∧ c.path = p := by
  simp only [deletedPaths, List.mem_map, List.mem_filter, beq_iff_eq]
  constructor
  · rintro ⟨c, ⟨hc, hk⟩, hp⟩
    exact ⟨c, hc, hk, hp⟩
  · rintro ⟨c, hc, hk, hp⟩
    exact ⟨c, ⟨hc, hk⟩, hp⟩

/-- C9.  The set of paths reported `created` by `diff(A, B)` equals the set of
paths reported `deleted` by `diff(B, A)`, and the set of changes is a function
of the two snapshots only (lookup-equal snapshots produce the same change
set). -/
theorem diffWorkspace_created_deleted_symm (A B A' B' : Snapshot)
    (hA : (A.map Prod.fst).Nodup) (hB : (B.map Prod.fst).Nodup)
    (hA' : (A'.map Prod.fst).Nodup) (hB' : (B'.map Prod.fst).Nodup)
    (hAA : ∀ p, List.lookup p A = List.lookup p A')
    (hBB : ∀ p, List.lookup p B = List.lookup p B') :
    (∀ p, p ∈ createdPaths (diffWorkspace A B) ↔ p ∈ deletedPaths (diffWorkspace B A)) ∧
    (∀ c, c ∈ diffWorkspace A B ↔ c ∈ diffWorkspace A' B') := by
  constructor
  · intro p
    rw [mem_createdPaths_iff, mem_deletedPaths_iff]
    constructor
    · rintro ⟨c, hc, hk, hp⟩
      rcases (mem_diffWorkspace_iff A B hA hB c).mp hc with
        ⟨s, m, hafter, hbefore, _, _⟩ | ⟨s, m, s', m', _, _, _, hk2, _⟩ | ⟨_, _, hk2, _⟩
      · refine ⟨{ path := c.path, change := .deleted, size := 0 }, ?_, rfl, hp⟩
        refine (mem_diffWorkspace_iff B A hB hA _).mpr (Or.inr (Or.inr ⟨?_, ?_, rfl, rfl⟩))
        · exact Option.isSome_iff_exists.mpr ⟨(s, m), hafter⟩
        · exact hbefore
      · rw [hk] at hk2; cases hk2
      · rw [hk] at hk2; cases hk2
    · rintro ⟨c, hc, hk, hp⟩
      rcases (mem_diffWorkspace_iff B A hB hA c).mp hc with
        ⟨s, m, _, _, hk2, _⟩ | ⟨s, m, s', m', _, _, _, hk2, _⟩ | ⟨hbsome, hanone, _, _⟩
      · rw [hk] at hk2; cases hk2
      · rw [hk] at hk2; cases hk2
      · obtain ⟨⟨s, m⟩, hsm⟩ := Option.isSome_iff_exists.mp hbsome
        refine ⟨{ path := c.path, change := .created, size := s }, ?_, rfl, hp⟩
        exact (mem_diffWorkspace_iff A B hA hB _).mpr (Or.inl ⟨s, m, hsm, hanone, rfl, rfl⟩)
  · intro c
    rw [mem_diffWorkspace_iff A B hA hB, mem_diffWorkspace_iff A' B' hA' hB',
      hAA c.path, hBB c.path]

/-- C9 witness: concrete snapshots where `b.txt` is created one way and
deleted the other, and a permuted-but-equal pair of snapshots yields the same
change set. -/
theorem diffWorkspace_created_deleted_symm_witness :
    ("b.txt" ∈ createdPaths (diffWorkspace [("a.py", (1, 1))] [("a.py", (1, 1)), ("b.txt", (2, 5))]) ↔
      "b.txt" ∈ deletedPaths (diffWorkspace [("a.py", (1, 1)), ("b.txt", (2, 5))] [("a.py", (1, 1))])) ∧
    ({ path := "b.txt", change := ChangeKind.created, size := 2 } ∈
        diffWorkspace [("a.py", (1, 1))] [("a.py", (1, 1)), ("b.txt", (2, 5))] ↔
      { path := "b.txt", change := ChangeKind.created, size := 2 } ∈
        diffWorkspace [("a.py", (1, 1))] [("b.txt", (2, 5)), ("a.py", (1, 1))]) := by
  have h := diffWorkspace_created_deleted_symm
    [("a.py", (1, 1))] [("a.py", (1, 1)), ("b.txt", (2, 5))]
    [("a.py", (1, 1))] [("b.txt", (2, 5)), ("a.py", (1, 1))]
    (by simp) (by simp) (by simp) (by simp)
    (fun p => rfl)
    (by
      intro p
      by_cases h1 : p = "a.py"
      · subst h1; rfl
      · by_cases h2 : p = "b.txt"
        · subst h2; rfl
        · have b1 : (p == "a.py") = false := beq_eq_false_iff_ne.mpr h1
          have b2 : (p == "b.txt") = false := beq_eq_false_iff_ne.mpr h2
          simp [List.lookup, b1, b2])
  exact ⟨h.1 "b.txt", h.2 { path := "b.txt", change := ChangeKind.created, size := 2 }⟩

/-- C7 counterexample.  The claim says the loader never raises and leaves the
map unchanged on malformed contents (anything but a JSON object of string
pairs).  But the file contents `[1]` — valid JSON, malformed per the claim —
make `dict.update` raise an uncaught `TypeError`, and the contents
`{"a": 5}` — also malformed per the claim — silently mutate the map. -/
theorem load_sessions_raises_on_non_object_json :
    loadSessionsFromWorkspace (some (some (.jarr [.jnum 1]))) [] =
      (some .typeError, []) ∧
    loadSessionsFromWorkspace (some (some (.jobj [("a", .jnum 5)]))) [] =
      (none, [(.kstr "a", .jnum 5)]) := by
  exact ⟨rfl, rfl⟩

/-- C7 (amended).  `load_sessions_from_workspace` never raises and leaves the
in-memory session map unchanged when the file is absent, unreadable, or not
decodable as JSON; a decoded JSON object is merged without raising regardless
of its value types, while other decoded values can escape as an uncaught
`TypeError` or `ValueError` from `dict.update`. -/
theorem load_sessions_tolerates_absent_and_undecodable (m : SessionMap)
    (fields : List (String × JVal)) :
    loadSessionsFromWorkspace none m = (none, m) ∧
    loadSessionsFromWorkspace (some none) m = (none, m) ∧
    (loadSessionsFromWorkspace (some (some (.jobj fields))) m).1 = none ∧
    (loadSessionsFromWorkspace (some (some .jnull)) m = (some .typeError, m) ∧
     loadSessionsFromWorkspace (some (some (.jnum 7))) m = (some .typeError, m)) := by
  exact ⟨rfl, rfl, rfl, rfl, rfl⟩

/-- C8 counterexample.  The claim says the snapshot's key set is exactly
`{"main.py"}`, but the hidden-name exclusion of `_snapshot_workspace` applies
only to the *directory* segments `rel.parts[:-1]`, so the root `.gitignore`
file itself survives every filter and is a second key. -/
theorem snapshot_keeps_root_gitignore_file :
    ".gitignore" ∈ (snapshotWorkspace gitignoreScenarioFiles gitignoreScenarioPatterns).map
      Prod.fst ∧
    (".gitignore" : String) ≠ "main.py" := by
  decide

/-- C8 (amended).  On that workspace the snapshot's key set is exactly
`{"main.py", ".gitignore"}`: `debug.log` and `build/out.js` are excluded by
the gitignore layer, while `main.py` and the root `.gitignore` file survive. -/
theorem snapshot_gitignore_scenario_keys :
    (snapshotWorkspace gitignoreScenarioFiles gitignoreScenarioPatterns).map Prod.fst =
      ["main.py", ".gitignore"] := by
  decide

theorem length_dropWhile_le (p : Char → Bool) (l : List Char) :
    (l.dropWhile p).length ≤ l.length := by
  induction l with
  | nil => simp
  | cons c cs ih =>
    by_cases h : p c
    · simp only [List.dropWhile_cons, h, if_true]
      exact Nat.le_succ_of_le ih
    · simp [List.dropWhile_cons, h]

theorem parsePlaceholder_length (l w rem : List Char)
    (h : parsePlaceholder l = some (w, rem)) : rem.length ≤ l.length := by
  match l with
  | [] => simp [parsePlaceholder] at h
  | [_] => simp [parsePlaceholder] at h
  | [_, _] => simp [parsePlaceholder] at h
  | [_, _, _] => simp [parsePlaceholder] at h
  | c1 :: c2 :: c3 :: c4 :: rest =>
    simp only [parsePlaceholder] at h
    by_cases h4 : c1 = 'E' ∧ c2 = 'N' ∧ c3 = 'V' ∧ c4 = '\x7b'
    · rw [if_pos h4] at h
      by_cases hw : (rest.takeWhile isEnvWordChar).isEmpty = true
      · rw [if_pos hw] at h
        cases h
      · rw [if_neg hw] at h
        rcases hdrop : rest.dropWhile isEnvWordChar with _ | ⟨c5, rem'⟩
        · rw [hdrop] at h
          cases h
        · rw [hdrop] at h
          dsimp only at h
          by_cases h5 : c5 = '\x7d'
          · rw [if_pos h5] at h
            cases h
            have h1 : rem.length + 1 = (rest.dropWhile isEnvWordChar).length := by
              rw [hdrop]
              simp
            have h2 : (rest.dropWhile isEnvWordChar).length ≤ rest.length :=
              length_dropWhile_le _ _
            simp only [List.length_cons]
            omega
          · rw [if_neg h5] at h
            cases h
    · rw [if_neg h4] at h
      cases h

theorem scanEnv_ok_iff (env : EnvMap) :
    ∀ (fuel : Nat) (l : List Char), l.length ≤ fuel →
      ((scanEnv env fuel l).2 = true ↔
        ∀ v ∈ phVarsAux fuel l, (lookupEnv env v).isSome = true) := by
  intro fuel
  induction fuel with
  | zero =>
    intro l hl
    have hnil : l = [] := List.length_eq_zero.mp (Nat.le_zero.mp hl)
    subst hnil
    simp [scanEnv, phVarsAux]
  | succ fuel ih =>
    intro l hl
    match l with
    | [] => simp [scanEnv, phVarsAux]
    | c :: rest =>
      have hrest : rest.length ≤ fuel := by
        simp only [List.length_cons] at hl
        omega
      by_cases hc : c = '$'
      · rcases hp : parsePlaceholder rest with _ | ⟨w, rem⟩
        · simp only [scanEnv, phVarsAux, if_pos hc, hp]
          exact ih rest hrest
        · have hrem : rem.length ≤ fuel :=
            le_trans (parsePlaceholder_length rest w rem hp) hrest
          rcases hlk : lookupEnv env (String.mk w) with _ | val
          · simp only [scanEnv, phVarsAux, if_pos hc, hp, hlk]
            constructor
            · intro hfalse
              cases hfalse
            · intro hall
              have := hall (String.mk w) (List.mem_cons_self _ _)
              rw [hlk] at this
              cases this
          · simp only [scanEnv, phVarsAux, if_pos hc, hp, hlk]
            rw [ih rem hrem]
            constructor
            · intro hall v hv
              rcases List.mem_cons.mp hv with hveq | hvmem
              · subst hveq
                rw [hlk]
                rfl
              · exact hall v hvmem
            · intro hall v hv
              exact hall v (List.mem_cons_of_mem _ hv)
      · simp only [scanEnv, phVarsAux, if_neg hc]
        exact ih rest hrest

theorem resolveEnvStr_ok_iff (value : String) (env : EnvMap) :
    (resolveEnvStr value env).2 = true ↔
      ∀ v ∈ phVars value, (lookupEnv env v).isSome = true :=
  scanEnv_ok_iff env value.data.length value.data le_rfl

theorem resolveOptStr_ok_iff (o : Option String) (env : EnvMap) :
    (resolveOptStr o env).2 = true ↔ ∀ v ∈ optVars o, (lookupEnv env v).isSome = true := by
  cases o with
  | none => simp [resolveOptStr, optVars]
  | some s => simpa [resolveOptStr, optVars] using resolveEnvStr_ok_iff s env

theorem all_resolve_ok_iff (xs : List String) (env : EnvMap) :
    (xs.all fun a => (resolveEnvStr a env).2) = true ↔
      ∀ v ∈ xs.flatMap phVars, (lookupEnv env v).isSome = true := by
  simp only [List.all_eq_true, List.mem_flatMap]
  constructor
  · rintro h v ⟨a, ha, hv⟩
    exact (resolveEnvStr_ok_iff a env).mp (h a ha) v hv
  · intro h a ha
    exact (resolveEnvStr_ok_iff a env).mpr fun v hv => h v ⟨a, ha, hv⟩

theorem all_resolve_pairs_ok_iff (xs : List (String × String)) (env : EnvMap) :
    (xs.all fun kv => (resolveEnvStr kv.2 env).2) = true ↔
      ∀ v ∈ (xs.map Prod.snd).flatMap phVars, (lookupEnv env v).isSome = true := by
  rw [← all_resolve_ok_iff]
  simp only [List.all_eq_true, List.mem_map]
  constructor
  · rintro h a ⟨kv, hkv, rfl⟩
    exact h kv hkv
  · intro h kv hkv
    exact h kv.2 ⟨kv, hkv, rfl⟩

theorem resolveEnvDict_isSome_iff (e : McpEntry) (env : EnvMap) :
    (resolveEnvDict e env).isSome = true ↔
      ∀ v ∈ entryVars e, (lookupEnv env v).isSome = true := by
  have h1 : (resolveEnvDict e env).isSome = entryAllOk e env := by
    simp only [resolveEnvDict]
    split <;> simp_all
  rw [h1]
  simp only [entryAllOk, Bool.and_eq_true, entryVars, List.mem_append]
  constructor
  · rintro ⟨⟨⟨⟨⟨hargs, hcwd⟩, hurl⟩, hcmd⟩, henv⟩, hhdr⟩ v hv
    rcases hv with ((((hv | hv) | hv) | hv) | hv) | hv
    · exact (resolveOptStr_ok_iff e.command env).mp hcmd v hv
    · exact (all_resolve_ok_iff e.args env).mp hargs v hv
    · exact (resolveOptStr_ok_iff e.cwd env).mp hcwd v hv
    · exact (resolveOptStr_ok_iff e.url env).mp hurl v hv
    · exact (all_resolve_pairs_ok_iff e.env env).mp henv v hv
    · exact (all_resolve_pairs_ok_iff e.headers env).mp hhdr v hv
  · intro h
    refine ⟨⟨⟨⟨⟨?_, ?_⟩, ?_⟩, ?_⟩, ?_⟩, ?_⟩
    · exact (all_resolve_ok_iff e.args env).mpr fun v hv =>
        h v (Or.inl (Or.inl (Or.inl (Or.inl (Or.inr hv)))))
    · exact (resolveOptStr_ok_iff e.cwd env).mpr fun v hv =>
        h v (Or.inl (Or.inl (Or.inl (Or.inr hv))))
    · exact (resolveOptStr_ok_iff e.url env).mpr fun v hv =>
        h v (Or.inl (Or.inl (Or.inr hv)))
    · exact (resolveOptStr_ok_iff e.command env).mpr fun v hv =>
        h v (Or.inl (Or.inl (Or.inl (Or.inl (Or.inl hv)))))
    · exact (all_resolve_pairs_ok_iff e.env env).mpr fun v hv =>
        h v (Or.inl (Or.inr hv))
    · exact (all_resolve_pairs_ok_iff e.headers env).mpr fun v hv =>
        h v (Or.inr hv)

theorem mem_buildServers (inferName : ToolingSpec → String) (env : EnvMap) :
    ∀ (specs : List ToolingSpec) (servers : List (String × McpEntry))
      (seen : List (String × Nat)) (n : String) (e : McpEntry),
      (n, e) ∈ buildServers inferName env specs servers seen →
      (n, e) ∈ servers ∨ ∃ spec ∈ specs, ∃ entry, specEntry spec = some entry ∧
        resolveEnvDict entry env = some e := by
  intro specs
  induction specs with
  | nil =>
    intro servers seen n e h
    exact Or.inl h
  | cons spec rest ih =>
    intro servers seen n e h
    rcases hse : specEntry spec with _ | entry
    · rw [buildServers, hse] at h
      rcases ih servers seen n e h with hin | ⟨sp, hsp, entry, he1, he2⟩
      · exact Or.inl hin
      · exact Or.inr ⟨sp, List.mem_cons_of_mem _ hsp, entry, he1, he2⟩
    · rw [buildServers, hse] at h
      rcases ih _ _ n e h with hin | ⟨sp, hsp, entry', he1, he2⟩
      · rcases hres : resolveEnvDict entry env with _ | resolved
        · rw [addServer, hres] at hin
          exact Or.inl hin
        · rw [addServer, hres] at hin
          rcases List.mem_append.mp hin with hin' | hin'
          · exact Or.inl hin'
          · simp only [List.mem_singleton, Prod.mk.injEq] at hin'
            exact Or.inr ⟨spec, List.mem_cons_self _ _, entry, hse, by rw [hres, hin'.2]⟩
      · exact Or.inr ⟨sp, List.mem_cons_of_mem _ hsp, entry', he1, he2⟩

/-- C5 counterexample.  The claim says that when every `$ENV{X}` placeholder
of an entry has a binding, the resolved entry contains no `$ENV{` substring.
Two refutations: the malformed text `$ENV{` references no variable yet
survives resolution verbatim, and a bound value containing `$ENV{Y}` is
substituted without rescanning, leaving the substring in the emitted entry. -/
theorem env_open_survives_resolution :
    ((entryVars malformedEntry).all fun v => (lookupEnv [] v).isSome) = true ∧
    resolveEnvDict malformedEntry [] = some malformedEntry ∧
    containsEnvOpen (malformedEntry.command.getD "") = true ∧
    ((entryVars substEntry).all fun v => (lookupEnv substEnv v).isSome) = true ∧
    resolveEnvDict substEntry substEnv = some { command := some "$ENV\x7bY\x7d" } ∧
    containsEnvOpen "$ENV\x7bY\x7d" = true := by
  decide

/-- C5 (amended).  An entry is resolved (and only then emitted) exactly when
every `$ENV{NAME}` placeholder occurring in its string fields has a binding —
so a partially substituted entry never reaches the output — and every entry
of the emitted servers document is the successful resolution of one of the
tooling specs; the literal substring `$ENV{` can nevertheless survive in a
resolved entry, through malformed placeholder text or substituted values. -/
theorem env_resolution_totality (e : McpEntry) (env : EnvMap)
    (inferName : ToolingSpec → String) (specs : List ToolingSpec)
    (n : String) (r : McpEntry) :
    ((resolveEnvDict e env).isSome = true ↔
      ∀ v ∈ entryVars e, (lookupEnv env v).isSome = true) ∧
    ((n, r) ∈ createMcpServers inferName env specs →
      ∃ spec ∈ specs, ∃ entry, specEntry spec = some entry ∧
        resolveEnvDict entry env = some r) := by
  refine ⟨resolveEnvDict_isSome_iff e env, ?_⟩
  intro hmem
  rcases mem_buildServers inferName env specs [] [] n r hmem with hin | hex
  · cases hin
  · exact hex

/-- C5 witness: a concrete spec list whose single local server resolves (no
placeholders) and is emitted under its prefix name. -/
theorem env_resolution_totality_witness :
    (resolveEnvDict { command := some "cmd" } []).isSome = true ∧
    (∃ spec ∈ [ToolingSpec.mcpLocal (some "s1") "cmd" [] [] none], ∃ entry,
      specEntry spec = some entry ∧
        resolveEnvDict entry [] = some { command := some "cmd" }) := by
  have h := env_resolution_totality { command := some "cmd" } [] (fun _ => "x")
    [ToolingSpec.mcpLocal (some "s1") "cmd" [] [] none] "s1" { command := some "cmd" }
  exact ⟨h.1.mpr (by decide), h.2 (by decide)⟩

theorem getSession_setSession (reg : Registry) (n v : String) :
    getSession (setSession reg n v) n = some v := by
  induction reg with
  | nil => simp [setSession, getSession, List.lookup]
  | cons kv rest ih =>
    obtain ⟨k, w⟩ := kv
    by_cases hk : k = n
    · subst hk
      simp [setSession, getSession, List.lookup]
    · have hbeq : (n == k) = false := beq_eq_false_iff_ne.mpr (Ne.symm hk)
      simp only [setSession, if_neg hk, getSession, List.lookup, hbeq]
      exact ih

theorem lookup_eq_none_of_not_mem {β : Type} (l : List (String × β)) (p : String)
    (h : p ∉ l.map Prod.fst) : List.lookup p l = none := by
  induction l with
  | nil => rfl
  | cons kv rest ih =>
    obtain ⟨k, w⟩ := kv
    simp only [List.map_cons, List.mem_cons] at h
    push_neg at h
    have hbeq : (p == k) = false := beq_eq_false_iff_ne.mpr h.1
    simp only [List.lookup, hbeq]
    exact ih h.2

theorem getSession_clearSession :
    ∀ (reg : Registry), (reg.map Prod.fst).Nodup → ∀ n,
      getSession (clearSession reg n) n = none := by
  intro reg
  induction reg with
  | nil =>
    intro _ n
    rfl
  | cons kv rest ih =>
    obtain ⟨k, v⟩ := kv
    intro hnd n
    simp only [List.map_cons, List.nodup_cons] at hnd
    by_cases hk : k = n
    · subst hk
      simp only [clearSession, if_pos rfl]
      exact lookup_eq_none_of_not_mem rest k hnd.1
    · simp only [clearSession, if_neg hk]
      have hbeq : (n == k) = false := beq_eq_false_iff_ne.mpr (fun h => hk h.symm)
      simp only [getSession, List.lookup, hbeq]
      exact ih hnd.2 n

theorem finishPhase_events (ctx : CallCtx) (isCont : Bool) (reg : Registry)
    (r : RawResponse) (stderr : String) (runs : Nat → RunOut) (k : Nat)
    (cmds : List RunCmd) (events : List CbEvent) :
    (finishPhase ctx isCont reg r stderr runs k cmds events).events = events := by
  simp only [finishPhase]
  split <;> rfl

theorem retryPhase_events (ctx : CallCtx) (isCont : Bool) (existing : Option String)
    (reg : Registry) (r : RawResponse) (stderr : String) (runs : Nat → RunOut) (k : Nat)
    (cmds : List RunCmd) (events : List CbEvent) :
    (retryPhase ctx isCont existing reg r stderr runs k cmds events).events = events := by
  simp only [retryPhase]
  split
  · split
    · rfl
    · exact finishPhase_events ..
  · exact finishPhase_events ..

theorem finishPhase_cmds_shape (ctx : CallCtx) (isCont : Bool) (reg : Registry)
    (r : RawResponse) (stderr : String) (runs : Nat → RunOut) (k : Nat)
    (cmds : List RunCmd) (events : List CbEvent) :
    ∃ tail, (finishPhase ctx isCont reg r stderr runs k cmds events).cmds = cmds ++ tail ∧
      ∀ c ∈ tail, ∃ s, c = RunCmd.resume s completionPrompt (natOr ctx.configuredTurns 20) := by
  simp only [finishPhase]
  split
  · refine ⟨_, rfl, ?_⟩
    intro c hc
    simp only [List.mem_singleton] at hc
    subst hc
    exact ⟨_, rfl⟩
  · exact ⟨[], by simp, by simp⟩

theorem retryPhase_cmds_shape (ctx : CallCtx) (isCont : Bool) (existing : Option String)
    (reg : Registry) (r : RawResponse) (stderr : String) (runs : Nat → RunOut) (k : Nat)
    (cmds : List RunCmd) (events : List CbEvent) :
    ∃ tail, (retryPhase ctx isCont existing reg r stderr runs k cmds events).cmds =
        cmds ++ tail ∧
      ∀ c ∈ tail, (∃ s, c = RunCmd.resume s completionPrompt (natOr ctx.configuredTurns 20)) ∨
        c = RunCmd.fresh ctx.prompt none (natOr ctx.configuredTurns 30) := by
  simp only [retryPhase]
  split
  · split
    · refine ⟨_, rfl, ?_⟩
      intro c hc
      simp only [List.mem_singleton] at hc
      subst hc
      exact Or.inr rfl
    · obtain ⟨tail, htail, hmem⟩ := finishPhase_cmds_shape ctx isCont
        (if optStrTruthy ctx.nodeId = true then clearSession reg (ctx.nodeId.getD "") else reg)
        (runs k).resp (runs k).stderr runs (k + 1)
        (cmds ++ [RunCmd.fresh ctx.prompt none (natOr ctx.configuredTurns 30)]) events
      refine ⟨RunCmd.fresh ctx.prompt none (natOr ctx.configuredTurns 30) :: tail, ?_, ?_⟩
      · rw [htail, List.append_assoc]
        rfl
      · intro c hc
        rcases List.mem_cons.mp hc with hceq | hcmem
        · exact Or.inr hceq
        · exact Or.inl (hmem c hcmem)
  · obtain ⟨tail, htail, hmem⟩ := finishPhase_cmds_shape ctx isCont reg r stderr runs k cmds events
    exact ⟨tail, htail, fun c hc => Or.inl (hmem c hc)⟩

theorem stallPrompt_ne_completionPrompt : stallPrompt ≠ completionPrompt := by
  decide

/-- C1 (amended).  When the first supervisor run of `call_model` returns
`{error: "stall"}`: with no session id available (neither in the stalled
response nor in the registry) the call returns
`"[Error: Agent stalled, no session to resume]"` and issues no resume run;
with a session id available the orchestrator emits exactly one
`stall_detected(session_id, idle_timeout)` callback when a streaming callback
was provided (and none otherwise), runs the supervisor exactly once more with
the resume command built from that session id, the fixed stall prompt and
`configured_turns or 20`, and if that second run ends in `timeout` or `stall`
it clears the registry entry for `node_id` and returns
`"[Error: Agent stalled and recovery failed]"`. -/
theorem callModel_stall_recovery (ctx : CallCtx) (reg : Registry) (runs : Nat → RunOut)
    (hstall : (runs 0).resp.error = some "stall") :
    (optStrTruthy (stallSessionOf ctx reg (runs 0).resp) = false →
      callModel ctx reg runs =
        { content := "[Error: Agent stalled, no session to resume]",
          cmds := [initialCmd ctx reg], events := [], registry := reg }) ∧
    (∀ sid, stallSessionOf ctx reg (runs 0).resp = some sid → sid ≠ "" →
      ((callModel ctx reg runs).events =
        (if ctx.callbackPresent then [CbEvent.stallDetected sid ctx.idleTimeout] else [])) ∧
      (∃ tail, (callModel ctx reg runs).cmds =
          initialCmd ctx reg ::
            RunCmd.resume sid stallPrompt (natOr ctx.configuredTurns 20) :: tail ∧
          ∀ c ∈ tail, c ≠ RunCmd.resume sid stallPrompt (natOr ctx.configuredTurns 20)) ∧
      ((runs 1).resp.error = some "timeout" ∨ (runs 1).resp.error = some "stall" →
        callModel ctx reg runs =
          { content := "[Error: Agent stalled and recovery failed]",
            cmds := [initialCmd ctx reg,
                     RunCmd.resume sid stallPrompt (natOr ctx.configuredTurns 20)],
            events :=
              if ctx.callbackPresent then [CbEvent.stallDetected sid ctx.idleTimeout] else [],
            registry :=
              if optStrTruthy ctx.nodeId then clearSession reg (ctx.nodeId.getD "")
              else reg } ∧
        ((reg.map Prod.fst).Nodup → optStrTruthy ctx.nodeId = true →
          getSession (callModel ctx reg runs).registry (ctx.nodeId.getD "") = none))) := by
  have h0t : ¬ ((runs 0).resp.error = some "timeout") := by
    rw [hstall]
    decide
  constructor
  · intro hns
    unfold callModel
    rw [if_neg h0t, if_pos hstall, if_neg (by simp [hns])]
  · intro sid hsid hne
    have hst : optStrTruthy (stallSessionOf ctx reg (runs 0).resp) = true := by
      rw [hsid]
      simp [optStrTruthy, hne]
    have hcmd1 : stallResumeCmd ctx reg runs =
        RunCmd.resume sid stallPrompt (natOr ctx.configuredTurns 20) := by
      simp [stallResumeCmd, hsid]
    have hev : stallEvents ctx reg runs =
        (if ctx.callbackPresent then [CbEvent.stallDetected sid ctx.idleTimeout] else []) := by
      simp [stallEvents, hsid]
    by_cases hfail : (runs 1).resp.error = some "timeout" ∨ (runs 1).resp.error = some "stall"
    · have hout : callModel ctx reg runs =
          { content := "[Error: Agent stalled and recovery failed]",
            cmds := [initialCmd ctx reg, stallResumeCmd ctx reg runs],
            events := stallEvents ctx reg runs,
            registry :=
              if optStrTruthy ctx.nodeId then clearSession reg (ctx.nodeId.getD "")
              else reg } := by
        unfold callModel
        rw [if_neg h0t, if_pos hstall, if_pos hst, if_pos hfail]
      refine ⟨?_, ?_, ?_⟩
      · rw [hout]
        exact hev
      · refine ⟨[], ?_, by simp⟩
        rw [hout, hcmd1]
      · intro _
        constructor
        · rw [hout, hcmd1, hev]
        · intro hnd hnode
          rw [hout]
          simp only [if_pos hnode]
          exact getSession_clearSession reg hnd (ctx.nodeId.getD "")
    · have hout : callModel ctx reg runs =
          retryPhase ctx (existingOf ctx reg).isSome (existingOf ctx reg) reg
            (runs 1).resp (runs 1).stderr runs 2
            [initialCmd ctx reg, stallResumeCmd ctx reg runs] (stallEvents ctx reg runs) := by
        unfold callModel
        rw [if_neg h0t, if_pos hstall, if_pos hst, if_neg hfail]
      refine ⟨?_, ?_, fun hf => absurd hf hfail⟩
      · rw [hout, retryPhase_events]
        exact hev
      · obtain ⟨tail, htail, hmem⟩ := retryPhase_cmds_shape ctx (existingOf ctx reg).isSome
          (existingOf ctx reg) reg (runs 1).resp (runs 1).stderr runs 2
          [initialCmd ctx reg, stallResumeCmd ctx reg runs] (stallEvents ctx reg runs)
        refine ⟨tail, ?_, ?_⟩
        · rw [hout, htail, hcmd1]
          rfl
        · intro c hc heq
          rcases hmem c hc with ⟨s, hcs⟩ | hcf
          · rw [heq] at hcs
            injection hcs with h1 h2 h3
            exact stallPrompt_ne_completionPrompt h2
          · rw [heq] at hcf
            cases hcf

/-- C1 counterexample.  The claim as stated requires exactly one
`stall_detected` callback whenever the first run stalls with a session id
available; with no streaming callback supplied (a supported mode — the tests
run with `stream_callback=None`), the orchestrator emits none. -/
theorem stall_callback_not_emitted_without_callback :
    ((c1NoCbRuns 0).resp.error = some "stall") ∧
    stallSessionOf c1NoCbCtx [] (c1NoCbRuns 0).resp = some "S" ∧
    (callModel c1NoCbCtx [] c1NoCbRuns).events = [] := by
  decide

/-- C1 witness: a stalled first run with session `S` and a callback present,
whose resume run times out — one `stall_detected` event, one resume command
after the initial one, the failure message, and a cleared registry entry. -/
theorem callModel_stall_recovery_witness :
    ((callModel c1CbCtx [] c1FailRuns).events =
      (if c1CbCtx.callbackPresent
       then [CbEvent.stallDetected "S" c1CbCtx.idleTimeout] else [])) ∧
    callModel c1CbCtx [] c1FailRuns =
      { content := "[Error: Agent stalled and recovery failed]",
        cmds := [initialCmd c1CbCtx [],
                 RunCmd.resume "S" stallPrompt (natOr c1CbCtx.configuredTurns 20)],
        events :=
          if c1CbCtx.callbackPresent
          then [CbEvent.stallDetected "S" c1CbCtx.idleTimeout] else [],
        registry :=
          if optStrTruthy c1CbCtx.nodeId then clearSession [] (c1CbCtx.nodeId.getD "")
          else [] } ∧
    getSession (callModel c1CbCtx [] c1FailRuns).registry (c1CbCtx.nodeId.getD "") = none := by
  have h := callModel_stall_recovery c1CbCtx [] c1FailRuns rfl
  obtain ⟨hev, _, hfail⟩ := h.2 "S" rfl (by decide)
  obtain ⟨hout, hcleared⟩ := hfail (Or.inl rfl)
  exact ⟨hev, hout, hcleared (by simp) (by decide)⟩

/-- C6.  At the output-validation step of `call_model` (after the error
branches, the retry and the session save): exactly when this was not a
continuation, the response's `error` field is falsy, the result text is
shorter than 1000 characters, and a session id is known from the response or
the registry, the supervisor is invoked exactly once more with the resume
command built from that session id, the fixed completion prompt and
`configured_turns or 20`, and the registry entry is updated when the second
run yields a session id; when any of the four conditions fails, no completion
resume happens. -/
theorem finishPhase_completion_resume (ctx : CallCtx) (isCont : Bool) (reg : Registry)
    (r : RawResponse) (stderr : String) (runs : Nat → RunOut) (k : Nat)
    (cmds : List RunCmd) (events : List CbEvent) :
    (completionCheck ctx isCont reg r = true →
      (finishPhase ctx isCont reg r stderr runs k cmds events).cmds =
        cmds ++ [RunCmd.resume ((completionSid ctx reg r).getD "") completionPrompt
          (natOr ctx.configuredTurns 20)] ∧
      (optStrTruthy (runs k).resp.session_id = true → optStrTruthy ctx.nodeId = true →
        getSession (finishPhase ctx isCont reg r stderr runs k cmds events).registry
          (ctx.nodeId.getD "") = some ((runs k).resp.session_id.getD ""))) ∧
    (completionCheck ctx isCont reg r = false →
      (finishPhase ctx isCont reg r stderr runs k cmds events).cmds = cmds) := by
  constructor
  · intro hc
    constructor
    · simp only [finishPhase, if_pos hc]
    · intro hsid hnode
      simp only [finishPhase, if_pos hc, savedRegistry]
      rw [if_pos ⟨hsid, hnode⟩]
      exact getSession_setSession _ _ _
  · intro hc
    simp only [finishPhase, hc]
    rfl

/-- C6 witness: on a fresh call with result `"ok"` (length 2 < 1000), no
error and session `T`, exactly one completion resume is issued and the
registry ends at the second run's session `T2`; with `isCont = true` the
resume is suppressed. -/
theorem finishPhase_completion_resume_witness :
    (finishPhase c6Ctx false [] c6Resp "" c6Runs 0 [] []).cmds =
      [] ++ [RunCmd.resume ((completionSid c6Ctx [] c6Resp).getD "") completionPrompt
        (natOr c6Ctx.configuredTurns 20)] ∧
    getSession (finishPhase c6Ctx false [] c6Resp "" c6Runs 0 [] []).registry
      (c6Ctx.nodeId.getD "") = some ((c6Runs 0).resp.session_id.getD "") ∧
    (finishPhase c6Ctx true [] c6Resp "" c6Runs 0 [] []).cmds = [] := by
  have h := finishPhase_completion_resume c6Ctx false [] c6Resp "" c6Runs 0 [] []
  have h' := finishPhase_completion_resume c6Ctx true [] c6Resp "" c6Runs 0 [] []
  exact ⟨(h.1 (by decide)).1, (h.1 (by decide)).2 (by decide) (by decide),
    h'.2 (by decide)⟩

end ChatDev
